import Mathlib

/-!
Verification of the quantum-control pulse-optimisation core used by the
CRAB/QFT notebook: time-sliced dynamics propagation, CRAB pulse generation,
unitary fidelity measures and the derivative-free optimisation loop.
The notebook itself only assembles operators and invokes the core, so every
component below is modelled from the specification of that core.
-/

open scoped Matrix
open NormedSpace

noncomputable section

/-- Modelled from the spec: an `Operator` is a complex square matrix of fixed
dimension `d` (drift, controls, target, start point are all of this type). -/
abbrev Operator (d : ℕ) := Matrix (Fin d) (Fin d) ℂ

/-- Modelled from the spec: `HamiltonianModel` is the immutable description of
the physical system: one drift operator and `n_ctrls` control operators, all
square matrices of equal dimension. -/
structure HamiltonianModel (d n_ctrls : ℕ) where
  drift : Operator d
  controls : Fin n_ctrls → Operator d

/-- Modelled from the spec: `TimeGrid` is an ordered sequence of `n_ts` equal
time-slot durations summing to `evo_time`. -/
structure TimeGrid (n_ts : ℕ) where
  evo_time : ℝ

/-- Duration of each (equal) slot of the grid: `evo_time / n_ts`. -/
def TimeGrid.tau {n_ts : ℕ} (g : TimeGrid n_ts) : ℝ :=
  g.evo_time / n_ts

/-- Modelled from the spec: `ControlAmplitudes` is an `n_ts × n_ctrls` real
matrix; row `t` gives the constant amplitude of each control during slot `t`. -/
def ControlAmplitudes (n_ts n_ctrls : ℕ) :=
  Fin n_ts → Fin n_ctrls → ℝ

/-- Modelled from the spec (DynamicsEngine): the per-slot generator
`H_t = H_drift + Σ_c amplitude[t,c] * H_control[c]`. -/
def ctrlGen {d n_ctrls : ℕ} (M : HamiltonianModel d n_ctrls) {n_ts : ℕ}
    (amps : ControlAmplitudes n_ts n_ctrls) (t : Fin n_ts) : Operator d :=
  M.drift + ∑ c, (amps t c : ℂ) • M.controls c

/-- Modelled from the spec (DynamicsEngine): the per-slot propagator is the
matrix exponential of the slot generator scaled by the slot duration (both the
DIAG and the FRECHET strategy compute this same operator; §8 writes the
drift-only case as the matrix exponential of `drift * evo_time/n_ts`). -/
def slotProp {d n_ctrls : ℕ} (M : HamiltonianModel d n_ctrls) {n_ts : ℕ}
    (g : TimeGrid n_ts) (amps : ControlAmplitudes n_ts n_ctrls)
    (t : Fin n_ts) : Operator d :=
  exp ℂ ((g.tau : ℂ) • ctrlGen M amps t)

/-- Modelled from the spec (DynamicsEngine): apply a list of per-slot
propagators to a start operator in time order — the head of the list (slot 0)
is applied first, each propagator being left-multiplied onto the evolution
accumulated so far. -/
def applyProps {d : ℕ} (Ps : List (Operator d)) (U0 : Operator d) : Operator d :=
  Ps.foldl (fun U P => P * U) U0

/-- The ordered product of a propagator list: slot 0 rightmost, so that the
product acts first by the slot-0 propagator. -/
def orderedProd {d : ℕ} (Ps : List (Operator d)) : Operator d :=
  applyProps Ps 1

/-- The list of the `n_ts` per-slot propagators in time order. -/
def propList {d n_ctrls : ℕ} (M : HamiltonianModel d n_ctrls) {n_ts : ℕ}
    (g : TimeGrid n_ts) (amps : ControlAmplitudes n_ts n_ctrls) :
    List (Operator d) :=
  (List.finRange n_ts).map (slotProp M g amps)

/-- Modelled from the spec (DynamicsEngine): the total evolution operator is
obtained by applying the `n_ts` per-slot propagators, slot 0 first, to the
start operator `U_0`. -/
def totalEvolution {d n_ctrls : ℕ} (M : HamiltonianModel d n_ctrls) {n_ts : ℕ}
    (g : TimeGrid n_ts) (amps : ControlAmplitudes n_ts n_ctrls)
    (U0 : Operator d) : Operator d :=
  applyProps (propList M g amps) U0

/-- Modelled from the spec (FidelityEvaluator, UNIT measure): the overlap of
the achieved and target operators is their trace inner product normalised by
the operator dimension. -/
def overlap {d : ℕ} (achieved target : Operator d) : ℂ :=
  Matrix.trace (target.conjTranspose * achieved) / (d : ℂ)

/-- Modelled from the spec: the two phase options of the UNIT fidelity
measure. -/
inductive PhaseOption where
  | SU : PhaseOption
  | PSU : PhaseOption
  deriving DecidableEq

/-- Modelled from the spec (FidelityEvaluator, UNIT measure): the fidelity
error is `1 − |normalized overlap|` under PSU and `1 − Re(normalized overlap)`
under SU. -/
def fidErrUnit {d : ℕ} (phase : PhaseOption) (achieved target : Operator d) : ℝ :=
  match phase with
  | PhaseOption.PSU => 1 - Complex.abs (overlap achieved target)
  | PhaseOption.SU => 1 - (overlap achieved target).re

/-- Modelled from the spec (PulseGenerator, CRAB variant): the configuration of
one CRAB pulse generator — per-basis-function coefficient, frequency and phase,
an overall scaling, optional lower/upper bounds, a fixed guess pulse and a fixed
ramping envelope, and the slot duration used to place the sample times. -/
structure PulseGenCrab (n_ts m : ℕ) where
  scaling : ℝ
  lbound : Option ℝ
  ubound : Option ℝ
  coeffs : Fin m → ℝ
  freqs : Fin m → ℝ
  phases : Fin m → ℝ
  guess_pulse : Fin n_ts → ℝ
  ramping_pulse : Fin n_ts → ℝ
  tau : ℝ

/-- Modelled from the spec (PulseGenerator): clip a sample to `[lbound, ubound]`
when the corresponding bound is set; an unset bound leaves the sample alone. -/
def applyBounds (lb ub : Option ℝ) (x : ℝ) : ℝ :=
  match ub, lb with
  | none, none => x
  | none, some l => max l x
  | some u, none => min u x
  | some u, some l => min u (max l x)

/-- Modelled from the spec (CRAB): the sum of the basis functions
`coeff_k * sin(2π f_k t + φ_k)` sampled at the start time of slot `t`. -/
def crabSum {n_ts m : ℕ} (g : PulseGenCrab n_ts m) (t : Fin n_ts) : ℝ :=
  ∑ k, g.coeffs k * Real.sin (2 * Real.pi * g.freqs k * ((t : ℝ) * g.tau) + g.phases k)

/-- Modelled from the spec (CRAB `gen_pulse`): the amplitude of slot `t` is the
basis-function sum scaled by `scaling`, combined additively with the guess
pulse and the ramping envelope, then clipped to `[lbound, ubound]` if bounds
are set. -/
def PulseGenCrab.gen_pulse {n_ts m : ℕ} (g : PulseGenCrab n_ts m)
    (t : Fin n_ts) : ℝ :=
  applyBounds g.lbound g.ubound
    (g.scaling * crabSum g t + g.guess_pulse t + g.ramping_pulse t)

/-- One step of a linear congruential generator (deterministic pseudo-random
source used to draw the CRAB basis frequencies). -/
def lcgStep (s : ℕ) : ℕ :=
  (1103515245 * s + 12345) % 2 ^ 31

/-- Modelled from the spec (CRAB `init_pulse`): the pseudo-random relative
offset of the `k`-th basis frequency, derived deterministically from a seed
tied to the slot count. -/
def crabFreqOffset (n_ts k : ℕ) : ℝ :=
  ((lcgStep^[k + 1] n_ts) % 1024 : ℕ) / 1024 - 1 / 2

/-- Modelled from the spec (CRAB `init_pulse`, absent from the repository,
which only calls it): derive the basis frequencies deterministically from a
seed tied to the evolution time and the slot count, and initialise the
optimisable coefficients to zero (zero initial CRAB amplitude unless
explicitly seeded). -/
def PulseGenCrab.init_pulse {n_ts m : ℕ} (evo_time : ℝ)
    (g : PulseGenCrab n_ts m) : PulseGenCrab n_ts m :=
  { g with
    freqs := fun k => 2 * Real.pi * ((k : ℝ) + 1) * (1 + crabFreqOffset n_ts k) / evo_time
    coeffs := fun _ => 0 }

/-- State-passing form of `gen_pulse`: it returns the generated amplitude
sequence together with the generator state after the call. -/
def PulseGenCrab.genPulseS {n_ts m : ℕ} (g : PulseGenCrab n_ts m) :
    (Fin n_ts → ℝ) × PulseGenCrab n_ts m :=
  (g.gen_pulse, g)

end

/-- Modelled from the spec (Optimizer state machine): the four terminal states
of a run. -/
inductive TermReason where
  | CONVERGED : TermReason
  | ITER_EXCEEDED : TermReason
  | TIME_EXCEEDED : TermReason
  | FAILED : TermReason
  deriving DecidableEq

/-- Modelled from the spec (Optimizer + StatsCollector): the live state of a
run — the best (last finite) parameter vector and its fidelity error, the
iteration count, and the StatsCollector counters (iterations and fidelity
calls). Error values range over a linear order `α` (ℝ in the intended
instantiation); a non-finite (NaN/Inf) fidelity value is modelled by the
evaluation oracle returning `none`. -/
structure OptimState (p α : Type*) where
  best_params : p
  best_err : α
  num_iter : ℕ
  stats_num_iter : ℕ
  stats_fid_calls : ℕ

/-- Modelled from the spec: the `OptimizationResult` surfaced to the caller —
initial and final amplitudes, initial and final fidelity error, termination
reason, iteration count and the StatsCollector snapshot. -/
structure OptimizationResult (p α : Type*) where
  initial_amps : p
  final_amps : p
  initial_fid_err : α
  fid_err : α
  termination_reason : TermReason
  num_iter : ℕ
  stats_num_iter : ℕ
  stats_fid_calls : ℕ

/-- Modelled from the spec (Optimizer RUNNING state, absent from the
repository, which only calls `run_optimization`): each iteration first checks
convergence (`best_err ≤ fid_err_targ`), then the iteration budget, then the
wall-clock budget; otherwise the derivative-free search proposes one candidate
(Nelder-Mead proposal abstracted as `propose`), evaluates its fidelity exactly
once (`eval`, `none` meaning a non-finite value), and on a non-finite value
terminates immediately as FAILED with the last finite state preserved;
otherwise the best-so-far state is updated and the loop continues. `timeUp`
abstracts the wall clock at each iteration boundary. -/
def runLoop {p α : Type*} [LinearOrder α] (fid_err_targ : α) (max_iter : ℕ)
    (timeUp : ℕ → Bool) (propose : OptimState p α → p) (eval : p → Option α) :
    ℕ → OptimState p α → TermReason × OptimState p α
  | 0, s => (TermReason.ITER_EXCEEDED, s)
  | fuel + 1, s =>
    if s.best_err ≤ fid_err_targ then (TermReason.CONVERGED, s)
    else if max_iter ≤ s.num_iter then (TermReason.ITER_EXCEEDED, s)
    else if timeUp s.num_iter then (TermReason.TIME_EXCEEDED, s)
    else
      match eval (propose s) with
      | none => (TermReason.FAILED, s)
      | some e =>
        runLoop fid_err_targ max_iter timeUp propose eval fuel
          { best_params := if e < s.best_err then propose s else s.best_params
            best_err := min e s.best_err
            num_iter := s.num_iter + 1
            stats_num_iter := s.stats_num_iter + 1
            stats_fid_calls := s.stats_fid_calls + 1 }

/-- Modelled from the spec (`run_optimization`, absent from the repository,
which only calls it): starting from the initial amplitudes and their (finite)
initial fidelity error, iterate the optimisation loop until a terminal state
and freeze the state into an `OptimizationResult`. The result's iteration
count includes the initial fidelity evaluation as its first iteration, so it
is one more than the StatsCollector's count of completed optimisation
iterations — this matches the run recorded in the notebook, whose summary
prints `Number of iterations 8611` from the result while the stats report
prints `Number of iterations: 8610`. -/
def run_optimization {p α : Type*} [LinearOrder α] (fid_err_targ : α)
    (max_iter : ℕ) (timeUp : ℕ → Bool) (propose : OptimState p α → p)
    (eval : p → Option α) (init_params : p) (init_err : α) :
    OptimizationResult p α :=
  let s0 : OptimState p α :=
    { best_params := init_params
      best_err := init_err
      num_iter := 0
      stats_num_iter := 0
      stats_fid_calls := 1 }
  let r := runLoop fid_err_targ max_iter timeUp propose eval (max_iter + 1) s0
  { initial_amps := init_params
    final_amps := r.2.best_params
    initial_fid_err := init_err
    fid_err := r.2.best_err
    termination_reason := r.1
    num_iter := r.2.num_iter + 1
    stats_num_iter := r.2.stats_num_iter
    stats_fid_calls := r.2.stats_fid_calls }

theorem applyProps_factor {d : ℕ} (Ps : List (Operator d)) (U0 : Operator d) :
    applyProps Ps U0 = orderedProd Ps * U0 := by
  suffices h : ∀ (l : List (Operator d)) (V : Operator d),
      applyProps l V = applyProps l 1 * V by
    exact h Ps U0
  intro l
  induction l with
  | nil => intro V; simp [applyProps]
  | cons P l ih =>
    intro V
    simp only [applyProps, List.foldl_cons] at *
    rw [ih (P * V), ih (P * 1), mul_one, mul_assoc]

theorem applyProps_const {d : ℕ} (P : Operator d) (Ps : List (Operator d))
    (U0 : Operator d) (h : ∀ Q ∈ Ps, Q = P) :
    applyProps Ps U0 = P ^ Ps.length * U0 := by
  induction Ps generalizing U0 with
  | nil => simp [applyProps]
  | cons Q l ih =>
    have hQ : Q = P := h Q (List.mem_cons_self Q l)
    have hl : ∀ R ∈ l, R = P := fun R hR => h R (List.mem_cons_of_mem Q hR)
    simp only [applyProps, List.foldl_cons] at *
    rw [ih (Q * U0) hl, hQ, List.length_cons, pow_succ, mul_assoc]

/-- C1: for every HamiltonianModel, TimeGrid and ControlAmplitudes the total
evolution operator equals the ordered product of the per-slot propagators
(slot 0 applied first) left-multiplied onto the start operator `U_0`; and
permuting the slot order changes the result whenever the propagators do not
commute (and the start operator is invertible). -/
theorem totalEvolution_orderedProd_and_order_matters :
    (∀ (d n_ctrls n_ts : ℕ) (M : HamiltonianModel d n_ctrls) (g : TimeGrid n_ts)
        (amps : ControlAmplitudes n_ts n_ctrls) (U0 : Operator d),
        totalEvolution M g amps U0 = orderedProd (propList M g amps) * U0) ∧
    (∀ (d : ℕ) (P Q U0 : Operator d), P * Q ≠ Q * P → IsUnit U0 →
        applyProps [P, Q] U0 ≠ applyProps [Q, P] U0) := by
  constructor
  · intro d n_ctrls n_ts M g amps U0
    exact applyProps_factor (propList M g amps) U0
  · intro d P Q U0 hPQ hU0 h
    simp only [applyProps, List.foldl_cons, List.foldl_nil] at h
    rw [← mul_assoc, ← mul_assoc] at h
    exact hPQ ((hU0.mul_right_cancel h).symm)

theorem totalEvolution_orderedProd_and_order_matters_witness :
    (totalEvolution (HamiltonianModel.mk (0 : Operator 2) (fun _ : Fin 1 => 0))
        (TimeGrid.mk 1 : TimeGrid 1) (fun _ _ => (0 : ℝ)) 1 =
      orderedProd (propList (HamiltonianModel.mk (0 : Operator 2) (fun _ : Fin 1 => 0))
        (TimeGrid.mk 1 : TimeGrid 1) (fun _ _ => (0 : ℝ))) * 1) ∧
    applyProps [(!![(0:ℂ),1;0,0] : Operator 2), !![(0:ℂ),0;1,0]] 1 ≠
      applyProps [(!![(0:ℂ),0;1,0] : Operator 2), !![(0:ℂ),1;0,0]] 1 := by
  constructor
  · exact totalEvolution_orderedProd_and_order_matters.1 2 1 1 _ _ _ 1
  · refine totalEvolution_orderedProd_and_order_matters.2 2 _ _ 1 ?_ isUnit_one
    intro h
    have h00 := Matrix.ext_iff.2 h 0 0
    simp [Matrix.mul_apply, Fin.sum_univ_two] at h00

/-- C3: for every HamiltonianModel and TimeGrid, when all control amplitudes
are zero the total evolution computed by the DynamicsEngine is the matrix
exponential of `H_drift * evo_time/n_ts` composed `n_ts` times (applied to the
start operator), i.e. the drift-only evolution. -/
theorem totalEvolution_zero_amps_drift_only
    (d n_ctrls n_ts : ℕ) (M : HamiltonianModel d n_ctrls) (g : TimeGrid n_ts)
    (U0 : Operator d) :
    totalEvolution M g (fun _ _ => 0) U0 =
      exp ℂ (((g.evo_time / n_ts : ℝ) : ℂ) • M.drift) ^ n_ts * U0 := by
  have hconst : ∀ Q ∈ propList M g (fun _ _ => 0),
      Q = exp ℂ (((g.evo_time / n_ts : ℝ) : ℂ) • M.drift) := by
    intro Q hQ
    obtain ⟨t, _, rfl⟩ := List.mem_map.1 hQ
    simp [slotProp, ctrlGen, TimeGrid.tau]
  have hlen : (propList M g (fun _ _ => 0)).length = n_ts := by
    simp [propList]
  rw [totalEvolution, applyProps_const _ _ _ hconst, hlen]

theorem overlap_phase_smul {d : ℕ} (hd : 0 < d) (T : Operator d)
    (hT : T.conjTranspose * T = 1) (c : ℂ) :
    overlap (c • T) T = c := by
  have hdc : ((d : ℕ) : ℂ) ≠ 0 := Nat.cast_ne_zero.2 hd.ne'
  rw [overlap, Matrix.mul_smul, hT, Matrix.trace_smul, Matrix.trace_one]
  rw [smul_eq_mul, Fintype.card_fin]
  field_simp

/-- C2 (amended): under the UNIT measure with a unitary target `T`, PSU
reports error 0 for an achieved operator `e^{iθ}·T` at every real phase `θ`,
while SU reports error 0 for `e^{iθ}·T` exactly when `θ` is an integer
multiple of `2π` (i.e. when `e^{iθ} = 1`). -/
theorem fidErrUnit_phase (d : ℕ) (hd : 0 < d) (T : Operator d)
    (hT : T.conjTranspose * T = 1) (θ : ℝ) :
    fidErrUnit PhaseOption.PSU (Complex.exp (θ * Complex.I) • T) T = 0 ∧
    (fidErrUnit PhaseOption.SU (Complex.exp (θ * Complex.I) • T) T = 0 ↔
      ∃ n : ℤ, θ = (n : ℝ) * (2 * Real.pi)) := by
  have hov := overlap_phase_smul hd T hT (Complex.exp (θ * Complex.I))
  constructor
  · rw [fidErrUnit, hov, Complex.abs_exp_ofReal_mul_I, sub_self]
  · rw [fidErrUnit, hov, Complex.exp_ofReal_mul_I_re, sub_eq_zero]
    rw [eq_comm, Real.cos_eq_one_iff]
    constructor
    · rintro ⟨n, hn⟩; exact ⟨n, hn.symm⟩
    · rintro ⟨n, hn⟩; exact ⟨n, hn.symm⟩

theorem fidErrUnit_phase_witness :
    fidErrUnit PhaseOption.PSU (Complex.exp ((0 : ℝ) * Complex.I) • (1 : Operator 1)) 1 = 0 ∧
    (fidErrUnit PhaseOption.SU (Complex.exp ((0 : ℝ) * Complex.I) • (1 : Operator 1)) 1 = 0 ↔
      ∃ n : ℤ, (0 : ℝ) = (n : ℝ) * (2 * Real.pi)) :=
  fidErrUnit_phase 1 Nat.one_pos 1 (by simp) 0

/-- C2 counterexample to the claim as stated: under SU the error is 0 for the
achieved operator `e^{iθ}·T` with `θ = 2π ≠ 0`, so SU does not return 0 only
at `θ = 0`. -/
theorem fidErrUnit_SU_two_pi_counterexample :
    fidErrUnit PhaseOption.SU
      (Complex.exp ((2 * Real.pi : ℝ) * Complex.I) • (1 : Operator 1)) 1 = 0 ∧
    (2 * Real.pi : ℝ) ≠ 0 := by
  constructor
  · have hov := overlap_phase_smul Nat.one_pos (1 : Operator 1) (by simp)
      (Complex.exp ((2 * Real.pi : ℝ) * Complex.I))
    rw [fidErrUnit, hov, Complex.exp_ofReal_mul_I_re, Real.cos_two_pi, sub_self]
  · exact mul_ne_zero two_ne_zero Real.pi_ne_zero

/-- C4: every sample produced by a CRAB generator with both bounds configured
and `lbound ≤ ubound` lies within `[lbound, ubound]`, for every time slot and
every coefficient vector held in the generator. -/
theorem gen_pulse_bounded {n_ts m : ℕ} (g : PulseGenCrab n_ts m) (l u : ℝ)
    (hl : g.lbound = some l) (hu : g.ubound = some u) (hlu : l ≤ u)
    (t : Fin n_ts) :
    l ≤ g.gen_pulse t ∧ g.gen_pulse t ≤ u := by
  rw [PulseGenCrab.gen_pulse, hl, hu, applyBounds]
  exact ⟨le_min hlu (le_max_left _ _), min_le_left _ _⟩

theorem gen_pulse_bounded_witness :
    (0 : ℝ) ≤ PulseGenCrab.gen_pulse
        (⟨1, some 0, some 1, fun _ => 1, fun _ => 1, fun _ => 0, fun _ => 0,
          fun _ => 0, 1⟩ : PulseGenCrab 1 1) 0 ∧
      PulseGenCrab.gen_pulse
        (⟨1, some 0, some 1, fun _ => 1, fun _ => 1, fun _ => 0, fun _ => 0,
          fun _ => 0, 1⟩ : PulseGenCrab 1 1) 0 ≤ 1 :=
  gen_pulse_bounded _ 0 1 rfl rfl zero_le_one 0

/-- C8 counterexample to the claim as stated: a CRAB generator with
`scaling = 0`, guess pulse 5, ramping 0 and `ubound = 2` produces the clipped
amplitude 2, not the guess-plus-ramping value 5, so the produced sequence does
not always equal guess plus ramping. -/
theorem gen_pulse_scaling_zero_counterexample :
    PulseGenCrab.gen_pulse
      (⟨0, none, some 2, fun _ => 0, fun _ => 0, fun _ => 0, fun _ => 5,
        fun _ => 0, 1⟩ : PulseGenCrab 1 1) 0 = 2 ∧
    PulseGenCrab.guess_pulse
        (⟨0, none, some 2, fun _ => 0, fun _ => 0, fun _ => 0, fun _ => 5,
          fun _ => 0, 1⟩ : PulseGenCrab 1 1) 0 +
      PulseGenCrab.ramping_pulse
        (⟨0, none, some 2, fun _ => 0, fun _ => 0, fun _ => 0, fun _ => 5,
          fun _ => 0, 1⟩ : PulseGenCrab 1 1) 0 = 5 ∧
    (2 : ℝ) ≠ 5 := by
  refine ⟨?_, by norm_num, by norm_num⟩
  rw [PulseGenCrab.gen_pulse]
  simp [applyBounds, crabSum]
  norm_num

/-- C8 (amended): with `scaling = 0` the optimizable CRAB component
contributes exactly zero: the generated amplitude sequence is independent of
the coefficient vector and equals the guess pulse plus the ramping envelope
clipped to the configured bounds — in particular it equals guess plus ramping
whenever no bounds are set — and the Optimizer completes the run without
error even though those coefficients have no effect on fidelity: a run whose
fidelity is evaluated through the frozen generator returns the same
well-formed `OptimizationResult` as a run whose fidelity ignores the
coefficient vector entirely. -/
theorem gen_pulse_scaling_zero {n_ts m : ℕ} (g : PulseGenCrab n_ts m)
    (h0 : g.scaling = 0) :
    (∀ cs : Fin m → ℝ,
      PulseGenCrab.gen_pulse { g with coeffs := cs } = g.gen_pulse) ∧
    (∀ t : Fin n_ts, g.gen_pulse t =
      applyBounds g.lbound g.ubound (g.guess_pulse t + g.ramping_pulse t)) ∧
    (g.lbound = none → g.ubound = none → ∀ t : Fin n_ts,
      g.gen_pulse t = g.guess_pulse t + g.ramping_pulse t) ∧
    (∀ (α : Type) [LinearOrder α], ∀ (targ : α) (max_iter : ℕ)
      (timeUp : ℕ → Bool) (propose : OptimState (Fin m → ℝ) α → Fin m → ℝ)
      (F : (Fin n_ts → ℝ) → Option α) (cs0 : Fin m → ℝ) (e0 : α),
      run_optimization targ max_iter timeUp propose
          (fun cs => F (PulseGenCrab.gen_pulse { g with coeffs := cs })) cs0 e0 =
        run_optimization targ max_iter timeUp propose
          (fun _ => F g.gen_pulse) cs0 e0) := by
  have hfun : ∀ cs : Fin m → ℝ,
      PulseGenCrab.gen_pulse { g with coeffs := cs } = g.gen_pulse := by
    intro cs
    funext t
    simp [PulseGenCrab.gen_pulse, h0]
  refine ⟨hfun, fun t => ?_, fun hlb hub t => ?_, ?_⟩
  · simp [PulseGenCrab.gen_pulse, h0]
  · simp [PulseGenCrab.gen_pulse, h0, hlb, hub, applyBounds]
  · intro α instLO targ max_iter timeUp propose F cs0 e0
    have heval : (fun cs => F (PulseGenCrab.gen_pulse { g with coeffs := cs })) =
        (fun _ : Fin m → ℝ => F g.gen_pulse) := by
      funext cs
      rw [hfun cs]
    rw [heval]

theorem gen_pulse_scaling_zero_witness :
    PulseGenCrab.gen_pulse
        (⟨0, none, none, fun _ => 1, fun _ => 0, fun _ => 0, fun _ => 3,
          fun _ => 4, 1⟩ : PulseGenCrab 1 1) 0 =
      applyBounds none none
        (PulseGenCrab.guess_pulse
          (⟨0, none, none, fun _ => 1, fun _ => 0, fun _ => 0, fun _ => 3,
            fun _ => 4, 1⟩ : PulseGenCrab 1 1) 0 +
        PulseGenCrab.ramping_pulse
          (⟨0, none, none, fun _ => 1, fun _ => 0, fun _ => 0, fun _ => 3,
            fun _ => 4, 1⟩ : PulseGenCrab 1 1) 0) ∧
    run_optimization (0 : ℕ) 1 (fun _ => false) (fun s => s.best_params)
        (fun cs => (fun _ : Fin 1 → ℝ => some 1)
          (PulseGenCrab.gen_pulse
            { (⟨0, none, none, fun _ => 1, fun _ => 0, fun _ => 0, fun _ => 3,
                fun _ => 4, 1⟩ : PulseGenCrab 1 1) with coeffs := cs }))
        (fun _ => 0) 5 =
      run_optimization (0 : ℕ) 1 (fun _ => false) (fun s => s.best_params)
        (fun _ => (fun _ : Fin 1 → ℝ => some 1)
          (PulseGenCrab.gen_pulse
            (⟨0, none, none, fun _ => 1, fun _ => 0, fun _ => 0, fun _ => 3,
              fun _ => 4, 1⟩ : PulseGenCrab 1 1)))
        (fun _ => 0) 5 :=
  ⟨(gen_pulse_scaling_zero
      (⟨0, none, none, fun _ => 1, fun _ => 0, fun _ => 0, fun _ => 3,
        fun _ => 4, 1⟩ : PulseGenCrab 1 1) rfl).2.1 0,
    (gen_pulse_scaling_zero
      (⟨0, none, none, fun _ => 1, fun _ => 0, fun _ => 0, fun _ => 3,
        fun _ => 4, 1⟩ : PulseGenCrab 1 1) rfl).2.2.2 ℕ 0 1 (fun _ => false)
      (fun s => s.best_params) (fun _ => some 1) (fun _ => 0) 5⟩

/-- C9: `gen_pulse` is deterministic and side-effect-free: in state-passing
form a call leaves the generator state unchanged and a repeated call returns
the same amplitude sequence; after `init_pulse` the CRAB basis frequencies are
a function of the evolution time and slot count alone, so two generators with
identical configuration produce identical amplitude sequences. -/
theorem gen_pulse_pure {n_ts m : ℕ} :
    (∀ g : PulseGenCrab n_ts m, (PulseGenCrab.genPulseS g).2 = g) ∧
    (∀ g : PulseGenCrab n_ts m,
      (PulseGenCrab.genPulseS (PulseGenCrab.genPulseS g).2).1 =
        (PulseGenCrab.genPulseS g).1) ∧
    (∀ (T : ℝ) (g g' : PulseGenCrab n_ts m),
      (PulseGenCrab.init_pulse T g).freqs = (PulseGenCrab.init_pulse T g').freqs) ∧
    (∀ (T : ℝ) (g g' : PulseGenCrab n_ts m) (t : Fin n_ts),
      g.scaling = g'.scaling → g.lbound = g'.lbound → g.ubound = g'.ubound →
      g.guess_pulse = g'.guess_pulse → g.ramping_pulse = g'.ramping_pulse →
      (PulseGenCrab.init_pulse T g).gen_pulse t =
        (PulseGenCrab.init_pulse T g').gen_pulse t) := by
  refine ⟨fun g => rfl, fun g => rfl, fun T g g' => rfl,
    fun T g g' t hsc hlb hub hgp hrp => ?_⟩
  simp only [PulseGenCrab.init_pulse, PulseGenCrab.gen_pulse, crabSum]
  simp only [zero_mul, Finset.sum_const_zero, mul_zero]
  rw [hlb, hub, hgp, hrp]

theorem gen_pulse_pure_witness :
    PulseGenCrab.gen_pulse
        (PulseGenCrab.init_pulse 1
          (⟨1, none, none, fun _ => 1, fun _ => 0, fun _ => 0, fun _ => 3,
            fun _ => 4, 1⟩ : PulseGenCrab 1 1)) 0 =
      PulseGenCrab.gen_pulse
        (PulseGenCrab.init_pulse 1
          (⟨1, none, none, fun _ => 1, fun _ => 0, fun _ => 0, fun _ => 3,
            fun _ => 4, 1⟩ : PulseGenCrab 1 1)) 0 :=
  gen_pulse_pure.2.2.2 1 _ _ 0 rfl rfl rfl rfl rfl

theorem runLoop_best_err_le {p α : Type*} [LinearOrder α] (targ : α) (max_iter : ℕ)
    (timeUp : ℕ → Bool) (propose : OptimState p α → p) (eval : p → Option α) :
    ∀ (fuel : ℕ) (s : OptimState p α),
      (runLoop targ max_iter timeUp propose eval fuel s).2.best_err ≤ s.best_err := by
  intro fuel
  induction fuel with
  | zero => intro s; simp [runLoop]
  | succ n ih =>
    intro s
    rw [runLoop]
    by_cases h1 : s.best_err ≤ targ
    · simp [h1]
    by_cases h2 : max_iter ≤ s.num_iter
    · simp [h1, h2]
    by_cases h3 : timeUp s.num_iter
    · simp [h1, h2, h3]
    cases heval : eval (propose s) with
    | none => simp [h1, h2, h3, heval]
    | some e =>
      simp only [h1, h2, h3, heval, if_false, Bool.false_eq_true, if_neg]
      exact le_trans (ih _) (min_le_right _ _)

theorem runLoop_iter_exceeded_above_targ {p α : Type*} [LinearOrder α] (targ : α)
    (max_iter : ℕ) (timeUp : ℕ → Bool) (propose : OptimState p α → p)
    (eval : p → Option α) :
    ∀ (fuel : ℕ) (s : OptimState p α), s.num_iter ≤ max_iter →
      fuel + s.num_iter = max_iter + 1 →
      (runLoop targ max_iter timeUp propose eval fuel s).1 = TermReason.ITER_EXCEEDED →
      targ < (runLoop targ max_iter timeUp propose eval fuel s).2.best_err := by
  intro fuel
  induction fuel with
  | zero => intro s hle hfuel _; omega
  | succ n ih =>
    intro s hle hfuel hres
    rw [runLoop] at hres ⊢
    by_cases h1 : s.best_err ≤ targ
    · simp [h1] at hres
    by_cases h2 : max_iter ≤ s.num_iter
    · simp [h1, h2]
      exact not_le.1 h1
    by_cases h3 : timeUp s.num_iter
    · simp [h1, h2, h3] at hres
    cases heval : eval (propose s) with
    | none => simp [h1, h2, h3, heval] at hres
    | some e =>
      simp only [h1, h2, h3, heval, if_false, Bool.false_eq_true, if_neg] at hres ⊢
      exact ih _ (by simp; omega) (by simp; omega) hres

theorem runLoop_stats_iter {p α : Type*} [LinearOrder α] (targ : α)
    (max_iter : ℕ) (timeUp : ℕ → Bool) (propose : OptimState p α → p)
    (eval : p → Option α) :
    ∀ (fuel : ℕ) (s : OptimState p α), s.stats_num_iter = s.num_iter →
      (runLoop targ max_iter timeUp propose eval fuel s).2.stats_num_iter =
        (runLoop targ max_iter timeUp propose eval fuel s).2.num_iter := by
  intro fuel
  induction fuel with
  | zero => intro s h; simpa [runLoop] using h
  | succ n ih =>
    intro s h
    rw [runLoop]
    by_cases h1 : s.best_err ≤ targ
    · simpa [h1] using h
    by_cases h2 : max_iter ≤ s.num_iter
    · simpa [h1, h2] using h
    by_cases h3 : timeUp s.num_iter
    · simpa [h1, h2, h3] using h
    cases heval : eval (propose s) with
    | none => simpa [h1, h2, h3, heval] using h
    | some e =>
      simp only [h1, h2, h3, heval, if_false, Bool.false_eq_true, if_neg]
      exact ih _ (by simp [h])

/-- C5: for every run of `run_optimization`, in particular every run that does
not terminate as FAILED, the final fidelity error recorded in the
`OptimizationResult` is at most the initial fidelity error recorded in the same
result (the loop only ever replaces the best-so-far error by a smaller one). -/
theorem run_optimization_final_le_initial {p α : Type*} [LinearOrder α]
    (targ : α) (max_iter : ℕ) (timeUp : ℕ → Bool)
    (propose : OptimState p α → p) (eval : p → Option α)
    (init_params : p) (init_err : α)
    (h : (run_optimization targ max_iter timeUp propose eval init_params
        init_err).termination_reason ≠ TermReason.FAILED) :
    (run_optimization targ max_iter timeUp propose eval init_params
        init_err).fid_err ≤
      (run_optimization targ max_iter timeUp propose eval init_params
        init_err).initial_fid_err :=
  runLoop_best_err_le targ max_iter timeUp propose eval (max_iter + 1)
    ⟨init_params, init_err, 0, 0, 1⟩

theorem run_optimization_final_le_initial_witness :
    (run_optimization (0 : ℕ) 1 (fun _ => false)
        (fun s : OptimState ℕ ℕ => s.best_params) (fun _ => some 1) 0
        5).termination_reason ≠ TermReason.FAILED ∧
    (run_optimization (0 : ℕ) 1 (fun _ => false)
        (fun s : OptimState ℕ ℕ => s.best_params) (fun _ => some 1) 0
        5).fid_err ≤
      (run_optimization (0 : ℕ) 1 (fun _ => false)
        (fun s : OptimState ℕ ℕ => s.best_params) (fun _ => some 1) 0
        5).initial_fid_err :=
  ⟨by decide,
    run_optimization_final_le_initial 0 1 (fun _ => false)
      (fun s => s.best_params) (fun _ => some 1) 0 5 (by decide)⟩

/-- C6: the Optimizer never reports ITER_EXCEEDED at an iteration where the
current fidelity error already meets the target: whenever a run terminates
with reason ITER_EXCEEDED its recorded fidelity error is strictly above
`fid_err_targ`, because the convergence check precedes the budget check in
every iteration. -/
theorem run_optimization_iter_exceeded_above_target {p α : Type*}
    [LinearOrder α] (targ : α) (max_iter : ℕ) (timeUp : ℕ → Bool)
    (propose : OptimState p α → p) (eval : p → Option α)
    (init_params : p) (init_err : α)
    (h : (run_optimization targ max_iter timeUp propose eval init_params
        init_err).termination_reason = TermReason.ITER_EXCEEDED) :
    targ < (run_optimization targ max_iter timeUp propose eval init_params
        init_err).fid_err :=
  runLoop_iter_exceeded_above_targ targ max_iter timeUp propose eval
    (max_iter + 1) ⟨init_params, init_err, 0, 0, 1⟩ (Nat.zero_le _) rfl h

theorem run_optimization_iter_exceeded_above_target_witness :
    (run_optimization (0 : ℕ) 1 (fun _ => false)
        (fun s : OptimState ℕ ℕ => s.best_params) (fun _ => some 2) 0
        7).termination_reason = TermReason.ITER_EXCEEDED ∧
    (0 : ℕ) < (run_optimization (0 : ℕ) 1 (fun _ => false)
        (fun s : OptimState ℕ ℕ => s.best_params) (fun _ => some 2) 0
        7).fid_err :=
  ⟨by decide,
    run_optimization_iter_exceeded_above_target 0 1 (fun _ => false)
      (fun s => s.best_params) (fun _ => some 2) 0 7 (by decide)⟩

/-- C7: once the optimisation loop is running, a non-finite (NaN/Inf)
fidelity value — modelled by the evaluation oracle returning `none` — makes
the loop terminate immediately in the FAILED state, without retry, with the
last finite state (amplitudes, error, statistics) preserved unchanged as the
final state of the returned result. -/
theorem runLoop_nonfinite_fails {p α : Type*} [LinearOrder α] (targ : α)
    (max_iter : ℕ) (timeUp : ℕ → Bool) (propose : OptimState p α → p)
    (eval : p → Option α) (fuel : ℕ) (s : OptimState p α)
    (h1 : ¬ s.best_err ≤ targ) (h2 : s.num_iter < max_iter)
    (h3 : timeUp s.num_iter = false) (h4 : eval (propose s) = none) :
    runLoop targ max_iter timeUp propose eval (fuel + 1) s =
      (TermReason.FAILED, s) := by
  rw [runLoop]
  simp [h1, not_le.2 h2, h3, h4]

theorem runLoop_nonfinite_fails_witness :
    runLoop (0 : ℕ) 3 (fun _ => false)
        (fun s : OptimState ℕ ℕ => s.best_params) (fun _ => none) (0 + 1)
        ⟨0, 5, 0, 0, 1⟩ =
      (TermReason.FAILED, ⟨0, 5, 0, 0, 1⟩) :=
  runLoop_nonfinite_fails 0 3 (fun _ => false) (fun s => s.best_params)
    (fun _ => none) 0 ⟨0, 5, 0, 0, 1⟩ (by decide) (by decide) rfl rfl

/-- C10 counterexample to the claim as stated: the concrete terminated run
below records 2 iterations in its `OptimizationResult` while its
StatsCollector accumulated 1 — mirroring the notebook's recorded run, whose
summary prints 8611 iterations from the result while the stats report prints
8610 — so the two counts are not equal. -/
theorem run_optimization_num_iter_stats_counterexample :
    (run_optimization (0 : ℕ) 1 (fun _ => false)
        (fun s : OptimState ℕ ℕ => s.best_params) (fun _ => some 1) 0
        5).num_iter = 2 ∧
    (run_optimization (0 : ℕ) 1 (fun _ => false)
        (fun s : OptimState ℕ ℕ => s.best_params) (fun _ => some 1) 0
        5).stats_num_iter = 1 ∧
    (2 : ℕ) ≠ 1 := by decide

/-- C10 (amended): for every terminated run, the iteration count stored in the
`OptimizationResult` equals the iteration count accumulated by the
StatsCollector for that run plus one: the result counts the initial fidelity
evaluation as its first iteration, while the StatsCollector counts completed
optimisation iterations (8611 against 8610 in the notebook's recorded run). -/
theorem run_optimization_num_iter_eq_stats_succ {p α : Type*} [LinearOrder α]
    (targ : α) (max_iter : ℕ) (timeUp : ℕ → Bool)
    (propose : OptimState p α → p) (eval : p → Option α)
    (init_params : p) (init_err : α) :
    (run_optimization targ max_iter timeUp propose eval init_params
        init_err).num_iter =
      (run_optimization targ max_iter timeUp propose eval init_params
        init_err).stats_num_iter + 1 :=
  congrArg (fun k => k + 1)
    (runLoop_stats_iter targ max_iter timeUp propose eval (max_iter + 1)
      ⟨init_params, init_err, 0, 0, 1⟩ rfl).symm
